import Mathlib

/-!
Verification of the Claude-Cline bridge message protocol.

This file gives a shallow embedding of the core of the repository and proves
properties of it:

* the length-delimited framing codec of `minimal-mcp-server.js`
  (`sendMessage` encoder, `process.stdin.on('data')` decoder loop);
* the polling client `ClaudeMCPClient` of `claude-mcp-client.js`
  (message dispatch, correlation maps, the private check loop of `updateFile`,
  connection guards, the reconnect behaviour of the poll loop);
* the dispatching client `ClaudeBridgeTool` of `cline-mcp-client.js`
  (request handlers, fire-and-forget methods, reconnect supervisor).

JS strings are modelled as lists of UTF-16 code units (`List Nat`), so that
JavaScript's `String.prototype.length` is `List.length` and `substring` is
`take`/`drop`, exactly as in the engine.  Timers are modelled by discrete
event traces.
-/

/-! ## Framing codec (`minimal-mcp-server.js`, lines 437-464) -/

/-- A JavaScript string: a sequence of UTF-16 code units. -/
abbrev JsStr := List Nat

/-- UTF-8 byte length of a JS string, as `Buffer.byteLength(s, 'utf8')`
computes it: units below 0x80 take one byte, below 0x800 two bytes, a
surrogate pair four bytes in total, any other unit (including a lone
surrogate, encoded as U+FFFD) three bytes. -/
def utf8Len : JsStr → Nat
  | [] => 0
  | u :: rest =>
    if u < 0x80 then 1 + utf8Len rest
    else if u < 0x800 then 2 + utf8Len rest
    else if 0xD800 ≤ u ∧ u < 0xDC00 then
      match rest with
      | v :: rest2 =>
        if 0xDC00 ≤ v ∧ v < 0xE000 then 4 + utf8Len rest2 else 3 + utf8Len (v :: rest2)
      | [] => 3
    else 3 + utf8Len rest

/-- Decimal digits (most significant first) of `n`, with enough fuel;
models the rendering of a JS number by `${contentLength}`. -/
def decDigits : Nat → Nat → List Nat
  | 0, _ => []
  | fuel + 1, n => if n < 10 then [n] else decDigits fuel (n / 10) ++ [n % 10]

/-- Decimal representation of `n` (digit values, most significant first). -/
def decRepr (n : Nat) : List Nat := decDigits (n + 1) n

/-- The code units of the decimal rendering of `n` (digits `'0'`-`'9'`). -/
def decUnits (n : Nat) : List Nat := (decRepr n).map (· + 48)

/-- Value of a run of decimal digits, as `parseInt(run, 10)` computes it. -/
def parseDec (ds : List Nat) : Nat := ds.foldl (fun a d => a * 10 + d) 0

/-- Code units of the literal `"Content-Length: "`. -/
def hdrLit : JsStr := [67, 111, 110, 116, 101, 110, 116, 45, 76, 101, 110, 103, 116, 104, 58, 32]

/-- Code units of `"\r\n\r\n"`. -/
def crlf2 : JsStr := [13, 10, 13, 10]

/-- Encoder (`sendMessage`, lines 437-442): the frame is
`"Content-Length: " + Buffer.byteLength(content, 'utf8') + "\r\n\r\n" + content`. -/
def encode (p : JsStr) : JsStr := hdrLit ++ decUnits (utf8Len p) ++ crlf2 ++ p

/-- `\d` of the header regex: an ASCII decimal digit. -/
def isDigitU (u : Nat) : Bool := 48 ≤ u && u ≤ 57

/-- Attempt to match `/Content-Length: (\d+)\r\n\r\n/` at the head of `s`;
returns the parsed length and the length of the whole match (`match[0].length`). -/
def matchAt (s : JsStr) : Option (Nat × Nat) :=
  if s.take 16 = hdrLit then
    let rest := s.drop 16
    let ds := rest.takeWhile isDigitU
    if ds.length = 0 then none
    else if (rest.drop ds.length).take 4 = crlf2 then
      some (parseDec (ds.map (· - 48)), 16 + ds.length + 4)
    else none
  else none

/-- Leftmost match of the header regex in the buffer
(`buffer.match(/Content-Length: (\d+)\r\n\r\n/)`). -/
def findMatch : JsStr → Option (Nat × Nat)
  | [] => none
  | u :: t =>
    match matchAt (u :: t) with
    | some r => some r
    | none => findMatch t

/-- Decoder state: the accumulating `buffer` and the `contentLength` variable
(`null` while scanning for a header). -/
structure DecSt where
  buffer : JsStr
  contentLength : Option Nat
deriving DecidableEq, Repr

/-- The decoder's `while (buffer.length > 0)` loop (lines 451-464), with fuel.
One iteration: if no length is pending, search for the header, consuming
`match[0].length` units from the front of the buffer on success and breaking
otherwise; then, if at least `contentLength` units are buffered, extract
exactly that many units as the next message, otherwise break. -/
def decodeLoop : Nat → DecSt → List JsStr → DecSt × List JsStr
  | 0, st, acc => (st, acc)
  | fuel + 1, st, acc =>
    if st.buffer.length = 0 then (st, acc)
    else
      match st.contentLength with
      | none =>
        match findMatch st.buffer with
        | none => (st, acc)
        | some (n, L) =>
          let buf := st.buffer.drop L
          if buf.length < n then ({ buffer := buf, contentLength := some n }, acc)
          else decodeLoop fuel { buffer := buf.drop n, contentLength := none } (acc ++ [buf.take n])
      | some n =>
        if st.buffer.length < n then (st, acc)
        else
          decodeLoop fuel { buffer := st.buffer.drop n, contentLength := none }
            (acc ++ [st.buffer.take n])

/-- One `data` event (line 448-449): append the chunk to the buffer and run
the loop to quiescence.  The fuel is more than the number of loop iterations
possible on a buffer of this size. -/
def onData (st : DecSt) (chunk : JsStr) : DecSt × List JsStr :=
  decodeLoop (st.buffer.length + chunk.length + 2)
    { buffer := st.buffer ++ chunk, contentLength := st.contentLength } []

/-- Feed a sequence of chunks to a fresh decoder, collecting all decoded
messages in order. -/
def decodeChunks (chunks : List JsStr) : DecSt × List JsStr :=
  chunks.foldl (fun p c => ((onData p.1 c).1, p.2 ++ (onData p.1 c).2))
    ({ buffer := [], contentLength := none }, [])

/-! ## Framing codec lemmas -/

/-- On an all-ASCII string the UTF-8 byte length equals the UTF-16 length. -/
theorem utf8Len_ascii (p : JsStr) (hp : ∀ u ∈ p, u < 128) : utf8Len p = p.length := by
  induction p with
  | nil => rfl
  | cons u rest ih =>
    have hu : u < 128 := hp u (List.mem_cons_self u rest)
    have : utf8Len (u :: rest) = 1 + utf8Len rest := by
      rw [utf8Len.eq_def]
      simp only []
      rw [if_pos hu]
    rw [this, ih fun v hv => hp v (List.mem_cons_of_mem u hv), List.length_cons]
    omega

theorem parseDec_snoc (l : List Nat) (d : Nat) :
    parseDec (l ++ [d]) = 10 * parseDec l + d := by
  simp [parseDec, List.foldl_append]
  omega

theorem decDigits_lt (fuel n : Nat) : ∀ d ∈ decDigits fuel n, d < 10 := by
  induction fuel generalizing n with
  | zero => intro d hd; simp [decDigits] at hd
  | succ fuel ih =>
    intro d hd
    by_cases h : n < 10
    · simp [decDigits, h] at hd; omega
    · simp [decDigits, h] at hd
      rcases hd with hd | hd
      · exact ih _ d hd
      · omega

theorem decDigits_ne_nil (fuel n : Nat) : decDigits (fuel + 1) n ≠ [] := by
  by_cases h : n < 10 <;> simp [decDigits, h]

theorem parseDec_decDigits (fuel n : Nat) (h : n ≤ fuel) :
    parseDec (decDigits (fuel + 1) n) = n := by
  induction fuel generalizing n with
  | zero =>
    have : n = 0 := Nat.le_zero.mp h
    subst this; rfl
  | succ fuel ih =>
    by_cases h10 : n < 10
    · simp [decDigits, h10, parseDec]
    · have : decDigits (fuel + 1 + 1) n = decDigits (fuel + 1) (n / 10) ++ [n % 10] := by
        simp [decDigits, h10]
      rw [this, parseDec_snoc, ih]
      · omega
      · have : n / 10 < n := Nat.div_lt_self (by omega) (by omega)
        omega

theorem parseDec_decRepr (n : Nat) : parseDec (decRepr n) = n :=
  parseDec_decDigits n n (Nat.le_refl n)

theorem decRepr_ne_nil (n : Nat) : decRepr n ≠ [] := decDigits_ne_nil n n

theorem decUnits_digits (n : Nat) : ∀ u ∈ decUnits n, isDigitU u = true := by
  intro u hu
  simp [decUnits] at hu
  obtain ⟨d, hd, rfl⟩ := hu
  have := decDigits_lt (n + 1) n d hd
  simp [isDigitU]; omega

theorem decUnits_sub (n : Nat) : (decUnits n).map (· - 48) = decRepr n := by
  simp [decUnits, List.map_map]
  have : ((· - 48) ∘ (· + 48) : Nat → Nat) = id := by
    funext d; simp
  rw [this, List.map_id]

theorem decUnits_ne_nil (n : Nat) : decUnits n ≠ [] := by
  simp [decUnits]; exact decRepr_ne_nil n

/-- The complete header of a frame with declared length `n`. -/
def hdr (n : Nat) : JsStr := hdrLit ++ decUnits n ++ crlf2

theorem encode_eq_hdr (p : JsStr) : encode p = hdr (utf8Len p) ++ p := by
  simp [encode, hdr]

theorem hdr_length (n : Nat) : (hdr n).length = 20 + (decUnits n).length := by
  simp [hdr, hdrLit, crlf2]; omega

theorem encode_length (p : JsStr) :
    (encode p).length = (hdr (utf8Len p)).length + p.length := by
  rw [encode_eq_hdr]; simp

theorem takeWhile_digits (ds t : List Nat) (h : ∀ u ∈ ds, isDigitU u = true) :
    List.takeWhile isDigitU (ds ++ 13 :: t) = ds := by
  induction ds with
  | nil => simp [List.takeWhile, isDigitU]
  | cons d ds ih =>
    have hd : isDigitU d = true := h d (List.mem_cons_self d ds)
    simp [List.takeWhile, hd]
    exact ih fun u hu => h u (List.mem_cons_of_mem d hu)

theorem matchAt_hdr (n : Nat) (r : JsStr) :
    matchAt (hdr n ++ r) = some (n, 16 + (decUnits n).length + 4) := by
  have hassoc : hdr n ++ r = hdrLit ++ (decUnits n ++ (crlf2 ++ r)) := by
    simp [hdr]
  have hlen : hdrLit.length = 16 := by rfl
  have htake : (hdr n ++ r).take 16 = hdrLit := by
    rw [hassoc, List.take_left' hlen]
  have hdrop : (hdr n ++ r).drop 16 = decUnits n ++ (crlf2 ++ r) := by
    rw [hassoc, List.drop_left' hlen]
  have hds : (decUnits n ++ (crlf2 ++ r)).takeWhile isDigitU = decUnits n := by
    have : crlf2 ++ r = 13 :: (10 :: 13 :: 10 :: r) := by simp [crlf2]
    rw [this]
    exact takeWhile_digits _ _ (decUnits_digits n)
  have hne : (decUnits n).length ≠ 0 := by
    simp [List.length_eq_zero]; exact decUnits_ne_nil n
  have hdrop2 : (decUnits n ++ (crlf2 ++ r)).drop (decUnits n).length = crlf2 ++ r :=
    List.drop_left _ _
  have hcr : (crlf2 ++ r).take 4 = crlf2 := List.take_left' (by rfl)
  simp only [matchAt, htake, hdrop, hds, hne, hdrop2, hcr, if_true, if_neg hne]
  simp [decUnits_sub, parseDec_decRepr]

theorem findMatch_of_matchAt (s : JsStr) (r : Nat × Nat) (hne : s ≠ [])
    (h : matchAt s = some r) : findMatch s = some r := by
  cases s with
  | nil => exact absurd rfl hne
  | cons u t => simp [findMatch, h]

theorem hdr_ne_nil (n : Nat) (r : JsStr) : hdr n ++ r ≠ [] := by
  simp [hdr, hdrLit]

theorem findMatch_hdr (n : Nat) (r : JsStr) :
    findMatch (hdr n ++ r) = some (n, (hdr n).length) := by
  have := matchAt_hdr n r
  have hl : 16 + (decUnits n).length + 4 = (hdr n).length := by
    rw [hdr_length]; omega
  rw [← hl]
  exact findMatch_of_matchAt _ _ (hdr_ne_nil n r) this

theorem decodeLoop_nil (f : Nat) (cl : Option Nat) (acc : List JsStr) :
    decodeLoop f { buffer := [], contentLength := cl } acc =
      ({ buffer := [], contentLength := cl }, acc) := by
  cases f <;> simp [decodeLoop]

theorem decodeLoop_nomatch (f : Nat) (buf : JsStr) (acc : List JsStr)
    (h : findMatch buf = none) :
    decodeLoop f { buffer := buf, contentLength := none } acc =
      ({ buffer := buf, contentLength := none }, acc) := by
  cases f with
  | zero => rfl
  | succ f =>
    by_cases hb : buf.length = 0
    · simp [decodeLoop, hb]
    · simp [decodeLoop, hb, h]

theorem decodeLoop_wait (f : Nat) (buf : JsStr) (n : Nat) (acc : List JsStr)
    (h : buf.length < n) :
    decodeLoop f { buffer := buf, contentLength := some n } acc =
      ({ buffer := buf, contentLength := some n }, acc) := by
  cases f with
  | zero => rfl
  | succ f =>
    by_cases hb : buf.length = 0
    · simp [decodeLoop, hb]
    · simp [decodeLoop, hb, h]

theorem decodeLoop_extract (f : Nat) (buf : JsStr) (n : Nat) (acc : List JsStr)
    (hb : buf.length ≠ 0) (h : ¬ buf.length < n) :
    decodeLoop (f + 1) { buffer := buf, contentLength := some n } acc =
      decodeLoop f { buffer := buf.drop n, contentLength := none } (acc ++ [buf.take n]) := by
  simp [decodeLoop, hb, h]

theorem decodeLoop_header (f n : Nat) (r : JsStr) (acc : List JsStr) :
    decodeLoop (f + 1) { buffer := hdr n ++ r, contentLength := none } acc =
      if r.length < n then ({ buffer := r, contentLength := some n }, acc)
      else decodeLoop f { buffer := r.drop n, contentLength := none } (acc ++ [r.take n]) := by
  have hb : ¬ ((hdr n ++ r).length = 0) := by simp [hdr, hdrLit]
  have hm := findMatch_hdr n r
  have hdrop : (hdr n ++ r).drop (hdr n).length = r := List.drop_left _ _
  simp only [decodeLoop]
  rw [if_neg hb, hm]
  simp only [hdrop]

theorem decodeLoop_frame (f : Nat) (p r : JsStr) (acc : List JsStr)
    (hp : ∀ u ∈ p, u < 128) :
    decodeLoop (f + 1) { buffer := encode p ++ r, contentLength := none } acc =
      decodeLoop f { buffer := r, contentLength := none } (acc ++ [p]) := by
  have hn : utf8Len p = p.length := utf8Len_ascii p hp
  have he : encode p ++ r = hdr (utf8Len p) ++ (p ++ r) := by
    rw [encode_eq_hdr, List.append_assoc]
  rw [he, decodeLoop_header]
  have hlt : ¬ (p ++ r).length < utf8Len p := by simp [hn]
  rw [if_neg hlt]
  have h1 : (p ++ r).drop (utf8Len p) = r := by rw [hn]; exact List.drop_left _ _
  have h2 : (p ++ r).take (utf8Len p) = p := by rw [hn]; exact List.take_left _ _
  rw [h1, h2]

theorem matchAt_two_lf (t : JsStr) (r : Nat × Nat) (h : matchAt t = some r) :
    2 ≤ t.count 10 := by
  by_cases h16 : t.take 16 = hdrLit
  · by_cases hds : ((t.drop 16).takeWhile isDigitU).length = 0
    · simp [matchAt, h16, hds] at h
    · have hdd : (t.drop 16).drop ((t.drop 16).takeWhile isDigitU).length =
          t.drop (16 + ((t.drop 16).takeWhile isDigitU).length) := by
        rw [List.drop_drop, Nat.add_comm]
      by_cases hcr : (t.drop (16 + ((t.drop 16).takeWhile isDigitU).length)).take 4 = crlf2
      · have hsplit1 : t = t.take 16 ++ t.drop 16 := (List.take_append_drop 16 t).symm
        have hsplit2 : t.drop 16 =
            (t.drop 16).takeWhile isDigitU ++
              t.drop (16 + ((t.drop 16).takeWhile isDigitU).length) := by
          rw [← hdd]
          have hpfx := List.takeWhile_prefix (l := t.drop 16) isDigitU
          have := List.prefix_iff_eq_take.mp hpfx
          conv_lhs => rw [← List.take_append_drop ((t.drop 16).takeWhile isDigitU).length (t.drop 16)]
          rw [← this]
        have hsplit3 : t.drop (16 + ((t.drop 16).takeWhile isDigitU).length) =
            crlf2 ++ (t.drop (16 + ((t.drop 16).takeWhile isDigitU).length)).drop 4 := by
          conv_lhs => rw [← List.take_append_drop 4 (t.drop (16 + ((t.drop 16).takeWhile isDigitU).length))]
          rw [hcr]
        have c1 : (t.take 16).count 10 = 0 := by rw [h16]; decide
        have c2 : crlf2.count 10 = 2 := by decide
        calc 2 = crlf2.count 10 := c2.symm
          _ ≤ (t.drop (16 + ((t.drop 16).takeWhile isDigitU).length)).count 10 := by
              conv_rhs => rw [hsplit3]
              rw [List.count_append]; omega
          _ ≤ (t.drop 16).count 10 := by
              conv_rhs => rw [hsplit2]
              rw [List.count_append]; omega
          _ ≤ t.count 10 := by
              conv_rhs => rw [hsplit1]
              rw [List.count_append]; omega
      · simp [matchAt, h16, hds] at h
        exact absurd h.1 hcr
  · simp [matchAt, h16] at h

theorem findMatch_some_suffix (q : JsStr) (r : Nat × Nat) (h : findMatch q = some r) :
    ∃ t, t <:+ q ∧ matchAt t = some r := by
  induction q with
  | nil => simp [findMatch] at h
  | cons u q ih =>
    rw [findMatch] at h
    cases hm : matchAt (u :: q) with
    | some r' =>
      rw [hm] at h
      exact ⟨u :: q, List.suffix_refl _, by rw [hm, ← h]⟩
    | none =>
      rw [hm] at h
      obtain ⟨t, hts, hmt⟩ := ih h
      exact ⟨t, hts.trans (List.suffix_cons u q), hmt⟩

theorem count10_decUnits (n : Nat) : (decUnits n).count 10 = 0 := by
  rw [List.count_eq_zero]
  intro hmem
  have := decUnits_digits n 10 hmem
  simp [isDigitU] at this

theorem count10_hdr_prefix (n : Nat) (q : JsStr) (hq : q <+: hdr n)
    (hlen : q.length < (hdr n).length) : q.count 10 ≤ 1 := by
  have hsplit : hdr n = (hdrLit ++ decUnits n ++ [13, 10, 13]) ++ [10] := by
    simp [hdr, crlf2]
  have hdl : (hdr n).dropLast = hdrLit ++ decUnits n ++ [13, 10, 13] := by
    rw [hsplit, List.dropLast_concat]
  have hqd : q <+: (hdr n).dropLast := by
    have heq : q = (hdr n).take q.length := List.prefix_iff_eq_take.mp hq
    have : q = ((hdr n).dropLast).take q.length := by
      rw [List.dropLast_eq_take, List.take_take, min_eq_left (by omega)]
      exact heq
    rw [this]
    exact List.take_prefix _ _
  have hcount : q.count 10 ≤ ((hdr n).dropLast).count 10 := (hqd.sublist).count_le 10
  have : ((hdr n).dropLast).count 10 = 1 := by
    rw [hdl, List.count_append, List.count_append, count10_decUnits]
    decide
  omega

theorem findMatch_hdr_prefix_none (n : Nat) (q : JsStr) (hq : q <+: hdr n)
    (hlen : q.length < (hdr n).length) : findMatch q = none := by
  cases hfm : findMatch q with
  | none => rfl
  | some r =>
    obtain ⟨t, hts, hmt⟩ := findMatch_some_suffix q r hfm
    have h2 := matchAt_two_lf t r hmt
    have hle : t.count 10 ≤ q.count 10 := (hts.sublist).count_le 10
    have h1 := count10_hdr_prefix n q hq hlen
    omega

/-- Decoder state after the decoder has consumed the prefix `q` of the
single-frame stream `encode p`: still accumulating the header, waiting for
the declared number of units, or finished. -/
def stOf (p q : JsStr) : DecSt :=
  if q.length < (hdr (utf8Len p)).length then { buffer := q, contentLength := none }
  else if q.length < (encode p).length then
    { buffer := q.drop (hdr (utf8Len p)).length, contentLength := some (utf8Len p) }
  else { buffer := [], contentLength := none }

/-- Messages emitted so far after consuming the prefix `q` of `encode p`. -/
def emOf (p q : JsStr) : List JsStr :=
  if q.length < (encode p).length then [] else [p]

theorem encode_take_ge (p : JsStr) (k : Nat) (h : (hdr (utf8Len p)).length ≤ k) :
    (encode p).take k = hdr (utf8Len p) ++ p.take (k - (hdr (utf8Len p)).length) := by
  rw [encode_eq_hdr, List.take_append_eq_append_take, List.take_of_length_le h]

theorem encode_take_lt (p : JsStr) (k : Nat) (h : k ≤ (hdr (utf8Len p)).length) :
    (encode p).take k = (hdr (utf8Len p)).take k := by
  rw [encode_eq_hdr, List.take_append_eq_append_take, Nat.sub_eq_zero_of_le h,
    List.take_zero, List.append_nil]

theorem emOf_step (p q c : JsStr) :
    emOf p q ++
      (if q.length < (encode p).length ∧ (encode p).length ≤ (q ++ c).length
       then [p] else []) = emOf p (q ++ c) := by
  have hkq : (q ++ c).length = q.length + c.length := List.length_append q c
  unfold emOf
  by_cases h1 : q.length < (encode p).length
  · by_cases h2 : (q ++ c).length < (encode p).length
    · rw [if_pos h1, if_pos h2, if_neg (by intro hco; omega :
        ¬ (q.length < (encode p).length ∧ (encode p).length ≤ (q ++ c).length))]
      rfl
    · rw [if_pos h1, if_neg h2, if_pos ⟨h1, le_of_not_lt h2⟩]
      rfl
  · have h2 : ¬ (q ++ c).length < (encode p).length := by omega
    rw [if_neg h1, if_neg h2, if_neg (by intro hco; omega :
      ¬ (q.length < (encode p).length ∧ (encode p).length ≤ (q ++ c).length))]
    rfl

theorem onData_inv (p : JsStr) (hp : ∀ u ∈ p, u < 128) (q c : JsStr)
    (hpre : (q ++ c) <+: encode p) :
    onData (stOf p q) c =
      (stOf p (q ++ c),
       if q.length < (encode p).length ∧ (encode p).length ≤ (q ++ c).length
       then [p] else []) := by
  have hn : utf8Len p = p.length := utf8Len_ascii p hp
  have hSlen : (encode p).length = (hdr (utf8Len p)).length + p.length := by
    rw [encode_eq_hdr]; simp
  have hk : (q ++ c).length ≤ (encode p).length := hpre.length_le
  have hq_pre : q <+: encode p := (List.prefix_append q c).trans hpre
  have hqlen : q.length ≤ (encode p).length := hq_pre.length_le
  have hqc : q ++ c = (encode p).take (q ++ c).length := List.prefix_iff_eq_take.mp hpre
  have hHpos : 0 < (hdr (utf8Len p)).length := by rw [hdr_length]; omega
  have hkq : (q ++ c).length = q.length + c.length := List.length_append q c
  by_cases hq1 : q.length < (encode p).length
  · by_cases hk1 : (q ++ c).length < (hdr (utf8Len p)).length
    · -- the whole consumed prefix still lies inside the header: just buffer
      have hq2 : q.length < (hdr (utf8Len p)).length := by omega
      have hqc2 : q ++ c = (hdr (utf8Len p)).take (q ++ c).length := by
        conv_lhs => rw [hqc]
        exact encode_take_lt p _ (by omega)
      have hfm : findMatch (q ++ c) = none := by
        apply findMatch_hdr_prefix_none (utf8Len p)
        · conv_lhs => rw [hqc2]
          exact List.take_prefix _ _
        · omega
      have hstq : stOf p q = { buffer := q, contentLength := none } := by
        unfold stOf; rw [if_pos hq2]
      have hstqc : stOf p (q ++ c) = { buffer := q ++ c, contentLength := none } := by
        unfold stOf; rw [if_pos hk1]
      have hd : (if q.length < (encode p).length ∧
          (encode p).length ≤ (q ++ c).length then [p] else ([] : List JsStr)) = [] := by
        rw [if_neg]; intro hco; omega
      rw [hstq, hstqc, hd]
      simp only [onData]
      exact decodeLoop_nomatch _ _ _ hfm
    · -- the consumed prefix covers the whole header
      have hqcm : q ++ c =
          hdr (utf8Len p) ++ p.take ((q ++ c).length - (hdr (utf8Len p)).length) := by
        conv_lhs => rw [hqc]
        exact encode_take_ge p _ (by omega)
      have hmlen : (p.take ((q ++ c).length - (hdr (utf8Len p)).length)).length =
          (q ++ c).length - (hdr (utf8Len p)).length := by
        rw [List.length_take]; omega
      have hdropm : (q ++ c).drop (hdr (utf8Len p)).length =
          p.take ((q ++ c).length - (hdr (utf8Len p)).length) := by
        conv_lhs => rw [hqcm]
        exact List.drop_left _ _
      by_cases hk2 : (q ++ c).length < (encode p).length
      · -- frame incomplete: the decoder parks in the waiting state
        have hmlt : (p.take ((q ++ c).length - (hdr (utf8Len p)).length)).length
            < utf8Len p := by
          rw [hmlen]
          conv_rhs => rw [hn]
          omega
        have hstqc : stOf p (q ++ c) =
            { buffer := p.take ((q ++ c).length - (hdr (utf8Len p)).length),
              contentLength := some (utf8Len p) } := by
          unfold stOf; rw [if_neg hk1, if_pos hk2, hdropm]
        have hd : (if q.length < (encode p).length ∧
            (encode p).length ≤ (q ++ c).length then [p] else ([] : List JsStr)) = [] := by
          rw [if_neg]; intro hco; omega
        rw [hstqc, hd]
        by_cases hq2 : q.length < (hdr (utf8Len p)).length
        · -- this chunk completes the header
          have hstq : stOf p q = { buffer := q, contentLength := none } := by
            unfold stOf; rw [if_pos hq2]
          rw [hstq]
          simp only [onData]
          have hf : q.length + c.length + 2 = (q.length + c.length + 1) + 1 := rfl
          rw [hf]
          conv_lhs => rw [hqcm]
          rw [decodeLoop_header, if_pos hmlt]
        · -- the header had already been consumed before this chunk
          have hstq : stOf p q =
              { buffer := q.drop (hdr (utf8Len p)).length,
                contentLength := some (utf8Len p) } := by
            unfold stOf; rw [if_neg hq2, if_pos hq1]
          have hbuf : q.drop (hdr (utf8Len p)).length ++ c =
              p.take ((q ++ c).length - (hdr (utf8Len p)).length) := by
            rw [← hdropm, List.drop_append_eq_append_drop,
              Nat.sub_eq_zero_of_le (le_of_not_lt hq2), List.drop_zero]
          rw [hstq]
          simp only [onData]
          conv_lhs => rw [hbuf]
          exact decodeLoop_wait _ _ _ _ hmlt
      · -- this chunk completes the frame: the payload is extracted
        have hkS : (q ++ c).length = (encode p).length := by omega
        have hmp : p.take ((q ++ c).length - (hdr (utf8Len p)).length) = p := by
          rw [show (q ++ c).length - (hdr (utf8Len p)).length = p.length by omega]
          exact List.take_length p
        have hstqc : stOf p (q ++ c) = { buffer := [], contentLength := none } := by
          unfold stOf; rw [if_neg hk1, if_neg hk2]
        have hd : (if q.length < (encode p).length ∧
            (encode p).length ≤ (q ++ c).length then [p] else ([] : List JsStr)) = [p] := by
          rw [if_pos ⟨hq1, by omega⟩]
        have hplt : ¬ (p.length < utf8Len p) := by omega
        have hpdrop : p.drop (utf8Len p) = [] := by rw [hn]; exact List.drop_length p
        have hptake : p.take (utf8Len p) = p := by rw [hn]; exact List.take_length p
        rw [hstqc, hd]
        by_cases hq2 : q.length < (hdr (utf8Len p)).length
        · -- header and payload both complete within this chunk
          have hstq : stOf p q = { buffer := q, contentLength := none } := by
            unfold stOf; rw [if_pos hq2]
          rw [hstq]
          simp only [onData]
          have hf : q.length + c.length + 2 = (q.length + c.length + 1) + 1 := rfl
          rw [hf]
          conv_lhs => rw [hqcm, hmp]
          rw [decodeLoop_header, if_neg hplt, hpdrop, hptake]
          exact decodeLoop_nil _ _ _
        · -- the header had been consumed; this chunk supplies the payload's tail
          have hstq : stOf p q =
              { buffer := q.drop (hdr (utf8Len p)).length,
                contentLength := some (utf8Len p) } := by
            unfold stOf; rw [if_neg hq2, if_pos hq1]
          have hbuf : q.drop (hdr (utf8Len p)).length ++ c =
              p.take ((q ++ c).length - (hdr (utf8Len p)).length) := by
            rw [← hdropm, List.drop_append_eq_append_drop,
              Nat.sub_eq_zero_of_le (le_of_not_lt hq2), List.drop_zero]
          have hppos : p.length ≠ 0 := by omega
          rw [hstq]
          simp only [onData]
          conv_lhs => rw [hbuf, hmp]
          have hf : (q.drop (hdr (utf8Len p)).length).length + c.length + 2 =
              ((q.drop (hdr (utf8Len p)).length).length + c.length + 1) + 1 := rfl
          rw [hf, decodeLoop_extract _ _ _ _ hppos hplt, hpdrop, hptake]
          exact decodeLoop_nil _ _ _
  · -- the frame was fully consumed before this chunk; the chunk must be empty
    have hqe : q.length = (encode p).length := le_antisymm hqlen (le_of_not_lt hq1)
    have hc0 : c = [] := by
      have : c.length = 0 := by omega
      exact List.length_eq_zero.mp this
    subst hc0
    have hstq : stOf p q = { buffer := [], contentLength := none } := by
      unfold stOf
      rw [if_neg (by omega : ¬ q.length < (hdr (utf8Len p)).length), if_neg hq1]
    have hd : (if q.length < (encode p).length ∧
        (encode p).length ≤ (q ++ []).length then [p] else ([] : List JsStr)) = [] := by
      rw [if_neg]; intro hco; omega
    rw [List.append_nil] at hd ⊢
    rw [hstq, hd]
    simp [onData, decodeLoop_nil]

theorem decode_single_frame (p : JsStr) (hp : ∀ u ∈ p, u < 128) :
    ∀ (cs : List JsStr) (q : JsStr), q ++ cs.flatten = encode p →
      cs.foldl (fun pr c => ((onData pr.1 c).1, pr.2 ++ (onData pr.1 c).2))
        (stOf p q, emOf p q) = ({ buffer := [], contentLength := none }, [p]) := by
  have hSlen : (encode p).length = (hdr (utf8Len p)).length + p.length := by
    rw [encode_eq_hdr]; simp
  have hHpos : 0 < (hdr (utf8Len p)).length := by rw [hdr_length]; omega
  intro cs
  induction cs with
  | nil =>
    intro q hq
    simp only [List.flatten_nil, List.append_nil] at hq
    subst hq
    simp only [List.foldl_nil]
    have h1 : stOf p (encode p) = { buffer := [], contentLength := none } := by
      unfold stOf
      rw [if_neg (by omega : ¬ (encode p).length < (hdr (utf8Len p)).length),
        if_neg (lt_irrefl _)]
    have h2 : emOf p (encode p) = [p] := by
      unfold emOf; rw [if_neg (lt_irrefl _)]
    rw [h1, h2]
  | cons c cs ih =>
    intro q hq
    rw [List.flatten_cons, ← List.append_assoc] at hq
    have hpre : (q ++ c) <+: encode p := ⟨cs.flatten, hq⟩
    rw [List.foldl_cons]
    have h1 : ((onData (stOf p q) c).1, emOf p q ++ (onData (stOf p q) c).2) =
        (stOf p (q ++ c), emOf p (q ++ c)) := by
      rw [onData_inv p hp q c hpre]
      show (stOf p (q ++ c), emOf p q ++ _) = _
      rw [emOf_step p q c]
    show List.foldl (fun pr c => ((onData pr.1 c).1, pr.2 ++ (onData pr.1 c).2))
        ((onData (stOf p q) c).1, emOf p q ++ (onData (stOf p q) c).2) cs = _
    rw [h1]
    exact ih (q ++ c) hq

/-- C1 (amended): for every payload whose UTF-8 byte length equals its UTF-16
length (in particular every ASCII payload), encoding it and feeding the bytes
to the decoder split into arbitrary chunks yields exactly the original
payload, and a single chunk holding two concatenated frames yields both
payloads in order.  (For non-ASCII payloads the round-trip fails, see the
counterexample.) -/
theorem framing_roundtrip_ascii (p : JsStr) (hp : ∀ u ∈ p, u < 128) :
    (∀ cs : List JsStr, cs.flatten = encode p →
      decodeChunks cs = ({ buffer := [], contentLength := none }, [p])) ∧
    (∀ p2 : JsStr, (∀ u ∈ p2, u < 128) →
      decodeChunks [encode p ++ encode p2] =
        ({ buffer := [], contentLength := none }, [p, p2])) := by
  have hSlen : (encode p).length = (hdr (utf8Len p)).length + p.length := by
    rw [encode_eq_hdr]; simp
  have hHpos : 0 < (hdr (utf8Len p)).length := by rw [hdr_length]; omega
  constructor
  · intro cs hcs
    have h0 : stOf p [] = { buffer := [], contentLength := none } := by
      unfold stOf
      rw [if_pos (by simpa using hHpos)]
    have h0e : emOf p [] = [] := by
      unfold emOf
      rw [if_pos (by simp; omega)]
    have := decode_single_frame p hp cs [] (by rw [List.nil_append]; exact hcs)
    rw [h0, h0e] at this
    exact this
  · intro p2 hp2
    unfold decodeChunks
    rw [List.foldl_cons, List.foldl_nil]
    show ((onData { buffer := [], contentLength := none } (encode p ++ encode p2)).1,
      [] ++ (onData { buffer := [], contentLength := none } (encode p ++ encode p2)).2) = _
    simp only [onData, List.nil_append, List.length_nil, Nat.zero_add]
    have hf : (encode p ++ encode p2).length + 2 =
        ((encode p ++ encode p2).length + 1) + 1 := rfl
    rw [hf, decodeLoop_frame _ p (encode p2) [] hp]
    conv_lhs => rw [show encode p2 = encode p2 ++ [] from (List.append_nil _).symm]
    rw [decodeLoop_frame _ p2 [] ([] ++ [p]) hp2, decodeLoop_nil]
    simp

/-- C1 counterexample: the payload consisting of the single unit 233 (the
character `é`, UTF-8 byte length 2 but string length 1) does not round-trip:
the decoder waits forever for a second unit and emits nothing. -/
theorem framing_roundtrip_cex :
    decodeChunks [encode [233]] = ({ buffer := [233], contentLength := some 2 }, []) ∧
    (decodeChunks [encode [233]]).2 ≠ [[233]] := by
  constructor <;> decide

/-- Witness: the amended C1 theorem applied to the payload "hi" split into
single-unit chunks, and to the frames "hi" and "!" concatenated in one chunk. -/
theorem framing_roundtrip_ascii_witness :
    decodeChunks ((encode [104, 105]).map fun u => [u]) =
      ({ buffer := [], contentLength := none }, [[104, 105]]) ∧
    decodeChunks [encode [104, 105] ++ encode [33]] =
      ({ buffer := [], contentLength := none }, [[104, 105], [33]]) := by
  constructor
  · exact (framing_roundtrip_ascii [104, 105] (by decide)).1 _ (by decide)
  · exact (framing_roundtrip_ascii [104, 105] (by decide)).2 [33] (by decide)

/-! ## Envelopes and the polling client `ClaudeMCPClient` (claude-mcp-client.js) -/

/-- A message envelope as exchanged through the relay's mailboxes.  JS fields
absent from a given message type keep their defaults (`""`/`none`), matching
`undefined` where the dispatch code only tests fields for truthiness.
`sender` models the `from` field of chat messages; `messages` the payload of
a batch envelope, as (content, from) pairs. -/
structure Envelope where
  type : String
  path : String := ""
  content : String := ""
  command : String := ""
  output : String := ""
  success : Option Bool := none
  error : Option String := none
  sender : String := ""
  messages : List (String × String) := []
deriving DecidableEq, Repr

/-- JS truthiness of an optional string field (`undefined` and `""` are falsy). -/
def strTruthy : Option String → Bool
  | none => false
  | some s => s != ""

/-- JS truthiness of the optional boolean `success` field. -/
def boolTruthy : Option Bool → Bool
  | some true => true
  | _ => false

/-- `a || d` for an optional string `a`: the default applies when `a` is falsy. -/
def jsOr (o : Option String) (d : String) : String :=
  match o with
  | some s => if s = "" then d else s
  | none => d

/-- Handler state of `ClaudeMCPClient`: the two correlation maps
(`fileContentHandlers`, `commandResultHandlers`, handler identified by an id)
and the observer list `messageHandlers`. -/
structure CState where
  fileContentHandlers : String → Option Nat
  commandResultHandlers : String → Option Nat
  messageHandlers : List Nat

/-- Observable effect of dispatching one envelope. -/
inductive CEff
  | fileHandlerCall (h : Nat) (content : String) (error : Option String)
  | commandHandlerCall (h : Nat) (output : String) (error : Option String) (success : Option Bool)
  | observerCall (h : Nat) (content : String) (src : String)
  | logLine (s : String)
deriving DecidableEq, Repr

/-- `ClaudeMCPClient.handleMessage` (lines 135-184): the switch over
`message.type`.  `fileContent`/`commandResult` call and delete the pending
handler keyed by path/command when present, and do nothing otherwise;
`updateCodeResult` only logs; `fileChanged` logs and fans a derived
description out to the observers; `message` fans the content out;
`messages` fans each batched entry out; any other type (including the wire
type `text` produced by `sendMessage`) falls through the switch untouched. -/
def handleMessage (s : CState) (m : Envelope) : CState × List CEff :=
  if m.type = "fileContent" then
    match s.fileContentHandlers m.path with
    | some h =>
      ({ s with fileContentHandlers :=
          fun k => if k = m.path then none else s.fileContentHandlers k },
       [CEff.fileHandlerCall h m.content m.error])
    | none => (s, [])
  else if m.type = "updateCodeResult" then
    (s, [CEff.logLine ("File update " ++
          (if boolTruthy m.success then "succeeded" else "failed") ++ ": " ++ m.path)] ++
        (if strTruthy m.error then [CEff.logLine ("Update error: " ++ jsOr m.error "")] else []))
  else if m.type = "fileChanged" then
    (s, [CEff.logLine ("File changed externally: " ++ m.path)] ++
        s.messageHandlers.map (fun h => CEff.observerCall h ("File changed: " ++ m.path) "system"))
  else if m.type = "commandResult" then
    match s.commandResultHandlers m.command with
    | some h =>
      ({ s with commandResultHandlers :=
          fun k => if k = m.command then none else s.commandResultHandlers k },
       [CEff.commandHandlerCall h m.output m.error m.success])
    | none => (s, [])
  else if m.type = "message" then
    (s, s.messageHandlers.map (fun h => CEff.observerCall h m.content m.sender))
  else if m.type = "messages" then
    (s, (m.messages.map (fun pr =>
        s.messageHandlers.map (fun h => CEff.observerCall h pr.1 pr.2))).flatten)
  else (s, [])

/-! ## `updateFile` and its private check loop (claude-mcp-client.js lines 235-300) -/

/-- The condition the check loop tests on each drained envelope:
`message.type === 'updateCodeResult' && message.path === path`. -/
def isUpdMatch (path : String) (m : Envelope) : Bool :=
  m.type == "updateCodeResult" && m.path == path

/-- The successful resolution value of `updateFile`. -/
structure UpdOk where
  success : Bool
  message : String
deriving DecidableEq, Repr

/-- Scan of one drained batch by the check interval (lines 277-289): the FIRST
matching `updateCodeResult` decides the call — `success` truthy resolves,
otherwise the call rejects with `message.error || 'Failed to update file'`;
every other envelope is passed over (and, the batch being drained, lost). -/
def scanUpdateResult (path : String) : List Envelope → Option (Except String UpdOk)
  | [] => none
  | m :: rest =>
    if isUpdMatch path m then
      some (if boolTruthy m.success then
              Except.ok { success := true, message := "File " ++ path ++ " updated successfully" }
            else Except.error (jsOr m.error "Failed to update file"))
    else scanUpdateResult path rest

/-- The check interval ticks once per second starting at second 1; the
30-second timeout (registered first) fires before the tick at second 30, so
ticks 1..29 can settle the call (lines 259-295).  `drains t` is the batch the
tick at second `t` drains from the party's mailbox. -/
def checkLoop (path : String) (drains : Nat → List Envelope) : Nat → Nat → Except String UpdOk
  | 0, _ => Except.error "Timeout waiting for file update confirmation"
  | fuel + 1, t =>
    match scanUpdateResult path (drains t) with
    | some r => r
    | none => checkLoop path drains fuel (t + 1)

def notConnectedErr : String := "Not connected to bridge server"

/-- Outcome of `ClaudeMCPClient.updateFile` (lines 235-300): the connected
guard, then the private check loop against the drain schedule. -/
def updateFileOutcome (connected : Bool) (path : String)
    (drains : Nat → List Envelope) : Except String UpdOk :=
  if !connected then Except.error notConnectedErr
  else checkLoop path drains 29 1

/-- One tick of the private check interval (lines 266-294), exposing that it
leaves the client's dispatch state untouched and produces no handler or
observer effect: the body only fetches, scans for its own result and
settles its own promise. -/
def updateCheckTick (path : String) (s : CState) (msgs : List Envelope) :
    CState × List CEff × Option (Except String UpdOk) :=
  (s, [], scanUpdateResult path msgs)

/-! ## Outbound calls and their connected guards -/

/-- A request posted to the bridge server by an outbound call. -/
inductive RelayPost
  | mcpInvoke (method : String) (path content command : Option String)
  | claudeMessage (content : String) (type : String)
  | claudeFile (name content : String)
  | clineMessage (e : Envelope)
  | clineFile (name content : String)
deriving DecidableEq, Repr

namespace ClaudeMCPClient

/-- Guard-and-enqueue phase of `getFile` (lines 187-204). -/
def getFile (connected : Bool) (path : String) : Except String Unit × List RelayPost :=
  if !connected then (Except.error notConnectedErr, [])
  else (Except.ok (), [RelayPost.mcpInvoke "getFile" (some path) none none])

/-- Guard-and-enqueue phase of `updateFile` (lines 235-252). -/
def updateFile (connected : Bool) (path content : String) :
    Except String Unit × List RelayPost :=
  if !connected then (Except.error notConnectedErr, [])
  else (Except.ok (), [RelayPost.mcpInvoke "updateFile" (some path) (some content) none])

/-- Guard-and-enqueue phase of `executeCommand` (lines 303-320). -/
def executeCommand (connected : Bool) (command : String) :
    Except String Unit × List RelayPost :=
  if !connected then (Except.error notConnectedErr, [])
  else (Except.ok (), [RelayPost.mcpInvoke "executeCommand" none none (some command)])

/-- `sendMessage` (lines 351-377): fire-and-forget chat message of type `text`. -/
def sendMessage (connected : Bool) (content : String) :
    Except String Unit × List RelayPost :=
  if !connected then (Except.error notConnectedErr, [])
  else (Except.ok (), [RelayPost.claudeMessage content "text"])

/-- `sendFile` (lines 380-406). -/
def sendFile (connected : Bool) (name content : String) :
    Except String Unit × List RelayPost :=
  if !connected then (Except.error notConnectedErr, [])
  else (Except.ok (), [RelayPost.claudeFile name content])

end ClaudeMCPClient

namespace ClaudeBridgeTool

/-- `sendMessage` (cline-mcp-client.js lines 295-322). -/
def sendMessage (connected : Bool) (content : String) :
    Except String Unit × List RelayPost :=
  if !connected then (Except.error notConnectedErr, [])
  else (Except.ok (), [RelayPost.clineMessage { type := "text", content := content }])

/-- `sendFile` (lines 348-375). -/
def sendFile (connected : Bool) (name content : String) :
    Except String Unit × List RelayPost :=
  if !connected then (Except.error notConnectedErr, [])
  else (Except.ok (), [RelayPost.clineFile name content])

/-- `notifyFileChanged` (lines 325-345): while disconnected it RETURNS
silently (`if (!this.connected) return;`) instead of raising an error. -/
def notifyFileChanged (connected : Bool) (path content : String) :
    Except String Unit × List RelayPost :=
  if !connected then (Except.ok (), [])
  else (Except.ok (), [RelayPost.clineMessage { type := "fileChanged", path := path, content := content }])

/-- `handleFileRequest` (lines 136-167): a read failure is caught and posted
back as a `fileContent` reply carrying `error` — note: no `success` field.
The second component is the exception propagated to the poll loop: none,
both branches are inside try/catch. -/
def handleFileRequest (res : Except String String) (path : String) :
    List Envelope × Option String :=
  match res with
  | Except.ok content => ([{ type := "fileContent", path := path, content := content }], none)
  | Except.error e => ([{ type := "fileContent", path := path, error := some e }], none)

/-- `handleUpdateCode` (lines 169-201): a write failure posts
`updateCodeResult` with `success: false` and the error message. -/
def handleUpdateCode (res : Except String Unit) (path _content : String) :
    List Envelope × Option String :=
  match res with
  | Except.ok _ => ([{ type := "updateCodeResult", path := path, success := some true }], none)
  | Except.error e =>
    ([{ type := "updateCodeResult", path := path, success := some false, error := some e }], none)

/-- `handleExecuteCommand` (lines 203-236): an execution failure posts
`commandResult` with `success: false` and the error message. -/
def handleExecuteCommand (res : Except String String) (command : String) :
    List Envelope × Option String :=
  match res with
  | Except.ok output =>
    ([{ type := "commandResult", command := command, output := output, success := some true }], none)
  | Except.error e =>
    ([{ type := "commandResult", command := command, success := some false, error := some e }], none)

end ClaudeBridgeTool

/-! ## Pending entries of the correlation layer (claude-mcp-client.js lines 211-227, 327-343) -/

/-- How a correlated call's promise settled. -/
inductive FOutcome
  | resolved (content : String)
  | rejected (e : String)
  | rejTimeout
deriving DecidableEq, Repr

/-- State of one correlation key: which call's handler currently occupies the
map entry, and how each call's promise has settled (if at all). -/
structure PendSt where
  occupant : Option Nat
  settle : Nat → Option FOutcome

def initPend : PendSt := { occupant := none, settle := fun _ => none }

/-- `this.fileContentHandlers.set(path, handler)`: `Map.set` silently
replaces whatever handler occupied the key. -/
def registerCall (s : PendSt) (i : Nat) : PendSt := { s with occupant := some i }

/-- A promise settles at most once; later settlement attempts are no-ops. -/
def settleOnce (f : Nat → Option FOutcome) (i : Nat) (o : FOutcome) : Nat → Option FOutcome :=
  fun j => if j = i then (match f i with | some x => some x | none => some o) else f j

/-- Events that can touch a pending entry: a reply envelope for its key is
dispatched, or some call's 30-second timer fires. -/
inductive PEv
  | reply (content : String) (error : Option String)
  | timeoutFire (call : Nat)

/-- One event step.  A dispatched reply calls and deletes the occupying
handler (resolving or rejecting that call, by the error's truthiness); a
firing timer deletes the map entry and rejects its own call with the
timeout error (lines 213-216: `fileContentHandlers.delete(path)` then
`reject`). -/
def pstep (s : PendSt) : PEv → PendSt
  | PEv.reply c err =>
    match s.occupant with
    | some i =>
      { occupant := none,
        settle := settleOnce s.settle i
          (match err with
           | some e => if e = "" then FOutcome.resolved c else FOutcome.rejected e
           | none => FOutcome.resolved c) }
    | none => s
  | PEv.timeoutFire i =>
    { occupant := none, settle := settleOnce s.settle i FOutcome.rejTimeout }

/-! ## Reconnect supervisor and constructor (both clients) -/

/-- The reconnect-relevant state: the `connected` flag and the delays of
scheduled, not-yet-fired reconnect probes. -/
structure ReconnSt where
  connected : Bool
  scheduledProbes : List Nat
deriving DecidableEq, Repr

/-- A failing poll tick (catch branch, cline-mcp-client.js lines 92-99 /
claude-mcp-client.js lines 109-118): only while still marked connected does
it flip the flag and schedule one `connectToServer` probe after 5000 ms. -/
def pollTickFail (s : ReconnSt) : ReconnSt :=
  if s.connected then { connected := false, scheduledProbes := s.scheduledProbes ++ [5000] }
  else s

/-- A successful poll tick leaves the connection state untouched. -/
def pollTickOk (s : ReconnSt) : ReconnSt := s

/-- A scheduled probe fires (`connectToServer`, lines 31-61): on success it
restarts polling and sets `connected`; on failure it logs and throws —
scheduling nothing. Either way the fired probe is spent. -/
def probeFire (s : ReconnSt) (ok : Bool) : ReconnSt :=
  { connected := if ok then true else s.connected,
    scheduledProbes := s.scheduledProbes.drop 1 }

/-- The remediation text logged when the handshake probe fails (lines 47-58). -/
def connectErrorMsg : String :=
  "\nERROR: Cannot connect to Claude-Cline bridge server at http://localhost:2612\n\nPlease ensure the server is running by:\n1. Open a terminal\n2. Navigate to: r:/devR/mcp/Claude-Cline-Bridge\n3. Run: npm start\n\nOr manually start with: node simplified-bridge.js\n            "

/-- Outcome of constructing a client: the connected flag, what was logged,
what (if anything) was thrown synchronously out of the constructor, and the
rejection left on the floating `connectToServer()` promise. -/
structure CtorOutcome where
  connected : Bool
  logs : List String
  syncThrow : Option String
  unhandledRejection : Option String
deriving DecidableEq, Repr

/-- The constructor (lines 19-28) plus `connectToServer` (lines 31-61):
`connectToServer()` is invoked without `await` or `.catch`, so the
constructor returns normally either way; a failed probe logs the remediation
message, leaves `connected` at its initial `false`, and re-throws
`Bridge server not available: …` into the floating promise, which surfaces
as an unhandled promise rejection.  (The success log's interpolated uptime
is elided.) -/
def constructClient (probeOk : Bool) (probeErr : String) : CtorOutcome :=
  if probeOk then
    { connected := true,
      logs := ["Connecting to bridge server at http://localhost:2612...",
               "Connected to server with uptime"],
      syncThrow := none,
      unhandledRejection := none }
  else
    { connected := false,
      logs := ["Connecting to bridge server at http://localhost:2612...", connectErrorMsg],
      syncThrow := none,
      unhandledRejection := some ("Bridge server not available: " ++ probeErr) }

/-! ## Claim theorems -/

/-- C8: an envelope of wire type `text` — the type `sendMessage` actually
emits — is ignored by the dispatcher: the switch has no `text` case (only
`message` is handled), so no observer is invoked, nothing is logged and the
state is unchanged, whatever observers are registered.  Moreover a
`fileChanged` envelope notifies observers with the derived string
`File changed: <path>`, not with the envelope's content. -/
theorem text_envelope_ignored (s : CState) (content path : String) :
    handleMessage s { type := "text", content := content } = (s, []) ∧
    (handleMessage
        { fileContentHandlers := fun _ => none, commandResultHandlers := fun _ => none,
          messageHandlers := [0] }
        { type := "fileChanged", path := path, content := content }).2 =
      [CEff.logLine ("File changed externally: " ++ path),
       CEff.observerCall 0 ("File changed: " ++ path) "system"] := by
  constructor
  · simp [handleMessage]
  · simp [handleMessage]

/-- C6: a `fileContent` or `commandResult` reply whose correlation key has no
pending handler — a late or duplicate reply, or one whose entry the timeout
already removed — is dropped silently: the handler maps and observers are
untouched, no effect is produced and no error is raised. -/
theorem reply_without_entry_dropped (s : CState) (m : Envelope) :
    (m.type = "fileContent" → s.fileContentHandlers m.path = none →
      handleMessage s m = (s, [])) ∧
    (m.type = "commandResult" → s.commandResultHandlers m.command = none →
      handleMessage s m = (s, [])) := by
  constructor
  · intro ht hh
    simp [handleMessage, ht, hh]
  · intro ht hh
    simp [handleMessage, ht, hh]

/-- Witness: a fresh client (no pending entries, one observer) drops a
`fileContent` reply for path `p` and a `commandResult` reply for `ls`. -/
theorem reply_without_entry_dropped_witness :
    handleMessage
        { fileContentHandlers := fun _ => none, commandResultHandlers := fun _ => none,
          messageHandlers := [7] } { type := "fileContent", path := "p" } =
      ({ fileContentHandlers := fun _ => none, commandResultHandlers := fun _ => none,
         messageHandlers := [7] }, []) ∧
    handleMessage
        { fileContentHandlers := fun _ => none, commandResultHandlers := fun _ => none,
          messageHandlers := [7] } { type := "commandResult", command := "ls" } =
      ({ fileContentHandlers := fun _ => none, commandResultHandlers := fun _ => none,
         messageHandlers := [7] }, []) := by
  constructor
  · exact (reply_without_entry_dropped _ _).1 rfl rfl
  · exact (reply_without_entry_dropped _ _).2 rfl rfl

theorem checkLoop_reaches (path : String) (drains : Nat → List Envelope)
    (r : Except String UpdOk) :
    ∀ (fuel t t₀ : Nat), t ≤ t₀ → t₀ < t + fuel →
      (∀ u, t ≤ u → u < t₀ → scanUpdateResult path (drains u) = none) →
      scanUpdateResult path (drains t₀) = some r →
      checkLoop path drains fuel t = r := by
  intro fuel
  induction fuel with
  | zero => intro t t₀ h1 h2 _ _; omega
  | succ fuel ih =>
    intro t t₀ h1 h2 hnone hhit
    by_cases he : t = t₀
    · subst he
      simp [checkLoop, hhit]
    · have hscan : scanUpdateResult path (drains t) = none :=
        hnone t (le_refl t) (by omega)
      simp only [checkLoop, hscan]
      exact ih (t + 1) t₀ (by omega) (by omega)
        (fun u hu1 hu2 => hnone u (by omega) hu2) hhit

/-- C2 (amended): if `updateFile(path, …)` is called while connected and the
first matching `updateCodeResult` for that path drained by its check loop —
at some tick `t₀` within the 30-second deadline — carries `success: true`,
then the call resolves with the success result: it neither times out nor
rejects.  (As stated the claim fails when a failing result for the same path
is delivered ahead of the successful one — see the counterexample.) -/
theorem updateFile_resolves_success (path : String) (drains : Nat → List Envelope)
    (u : UpdOk) (t₀ : Nat) (h1 : 1 ≤ t₀) (h2 : t₀ ≤ 29)
    (hfirst : ∀ t, 1 ≤ t → t < t₀ → scanUpdateResult path (drains t) = none)
    (hhit : scanUpdateResult path (drains t₀) = some (Except.ok u)) :
    updateFileOutcome true path drains = Except.ok u := by
  show checkLoop path drains 29 1 = Except.ok u
  exact checkLoop_reaches path drains (Except.ok u) 29 1 t₀ h1 (by omega) hfirst hhit

/-- Witness: a success result for `a.txt` drained at the first tick resolves
the call with the success record. -/
theorem updateFile_resolves_success_witness :
    updateFileOutcome true "a.txt"
      (fun t => if t = 1 then
        [{ type := "updateCodeResult", path := "a.txt", success := some true }] else []) =
      Except.ok { success := true, message := "File a.txt updated successfully" } := by
  exact updateFile_resolves_success "a.txt" _ _ 1 (le_refl 1) (by omega)
    (fun t ha hb => by omega) (by rfl)

/-- C2 counterexample: with a failing `updateCodeResult` for the same path
delivered (and drained) ahead of the successful one — both well before the
30-second deadline — the call rejects with the failure's error message even
though a matching success result was delivered in time. -/
theorem updateFile_fail_first_cex :
    (({ type := "updateCodeResult", path := "a", success := some true } : Envelope) ∈
      (if (1 : Nat) = 1 then
        [({ type := "updateCodeResult", path := "a", success := some false,
            error := some "disk full" } : Envelope),
         { type := "updateCodeResult", path := "a", success := some true }] else [])) ∧
    updateFileOutcome true "a"
      (fun t => if t = 1 then
        [{ type := "updateCodeResult", path := "a", success := some false,
           error := some "disk full" },
         { type := "updateCodeResult", path := "a", success := some true }] else []) =
      Except.error "disk full" := by
  constructor
  · simp
  · rfl

/-- C10: the private check loop of `updateFile` consumes whole batches from
the party's mailbox on its own 1-second cadence: it leaves the client's
dispatch state untouched and produces no handler or observer effect, the
outcome depends only on the matching `updateCodeResult` envelopes (every
other drained envelope — `fileContent` replies, `text` or `fileChanged`
notifications — is discarded without influence), and a batch with no match
settles nothing. -/
theorem updateCheck_discards (path : String) (s : CState) (msgs : List Envelope) :
    (updateCheckTick path s msgs).1 = s ∧
    (updateCheckTick path s msgs).2.1 = [] ∧
    scanUpdateResult path msgs = scanUpdateResult path (msgs.filter (isUpdMatch path)) ∧
    scanUpdateResult path (msgs.filter fun m => !(isUpdMatch path m)) = none := by
  refine ⟨rfl, rfl, ?_, ?_⟩
  · induction msgs with
    | nil => rfl
    | cons m rest ih =>
      by_cases h : isUpdMatch path m = true
      · simp [scanUpdateResult, List.filter_cons, h]
      · simp [scanUpdateResult, List.filter_cons, h, ih]
  · induction msgs with
    | nil => rfl
    | cons m rest ih =>
      by_cases h : isUpdMatch path m = true
      · simp [List.filter_cons, h, ih]
      · simp [scanUpdateResult, List.filter_cons, h, ih]

/-- C5: the correlation map holds at most one entry per key (registering call
2 while call 1 is in flight leaves exactly call 2's handler in the map,
silently replacing call 1's); from then on, under every subsequent event
trace, call 1 is either still unsettled or rejected with the timeout error —
a dispatched reply can never settle it — and its own timeout firing does
settle it with the timeout rejection. -/
theorem pending_entry_overwrite (evs : List PEv) :
    (registerCall (registerCall initPend 1) 2).occupant = some 2 ∧
    (((evs.foldl pstep (registerCall (registerCall initPend 1) 2)).settle 1 = none) ∨
      ((evs.foldl pstep (registerCall (registerCall initPend 1) 2)).settle 1 =
        some FOutcome.rejTimeout)) ∧
    (pstep (registerCall (registerCall initPend 1) 2) (PEv.timeoutFire 1)).settle 1 =
      some FOutcome.rejTimeout := by
  refine ⟨rfl, ?_, ?_⟩
  · have key : ∀ (l : List PEv) (s : PendSt), s.occupant ≠ some 1 →
        (s.settle 1 = none ∨ s.settle 1 = some FOutcome.rejTimeout) →
        ((l.foldl pstep s).settle 1 = none ∨
          (l.foldl pstep s).settle 1 = some FOutcome.rejTimeout) := by
      intro l
      induction l with
      | nil => intro s _ h2; exact h2
      | cons e rest ih =>
        intro s h1 h2
        rw [List.foldl_cons]
        apply ih
        · cases e with
          | reply c err =>
            cases ho : s.occupant with
            | some i => simp [pstep, ho]
            | none => simp [pstep, ho]
          | timeoutFire i => simp [pstep]
        · cases e with
          | reply c err =>
            cases ho : s.occupant with
            | some i =>
              have hne : (1 : Nat) ≠ i := by
                intro h
                exact h1 (by rw [← h] at ho; exact ho)
              simp only [pstep, ho, settleOnce]
              rw [if_neg hne]
              exact h2
            | none =>
              simp only [pstep, ho]
              exact h2
          | timeoutFire i =>
            by_cases hi : (1 : Nat) = i
            · subst hi
              rcases h2 with h2 | h2 <;>
                simp [pstep, settleOnce, h2]
            · simp only [pstep, settleOnce]
              rw [if_neg hi]
              exact h2
    refine key evs _ ?_ (Or.inl rfl)
    simp [registerCall, initPend]
  · simp [pstep, registerCall, initPend, settleOnce]

/-- C4 (amended): every outbound method called while disconnected fails
immediately with the "not connected" error and enqueues nothing at the relay
— except `ClaudeBridgeTool.notifyFileChanged`, which returns silently
(without an error) and likewise enqueues nothing. -/
theorem disconnected_calls_fail (path content name command : String) :
    ClaudeMCPClient.getFile false path = (Except.error notConnectedErr, []) ∧
    ClaudeMCPClient.updateFile false path content = (Except.error notConnectedErr, []) ∧
    ClaudeMCPClient.executeCommand false command = (Except.error notConnectedErr, []) ∧
    ClaudeMCPClient.sendMessage false content = (Except.error notConnectedErr, []) ∧
    ClaudeMCPClient.sendFile false name content = (Except.error notConnectedErr, []) ∧
    ClaudeBridgeTool.sendMessage false content = (Except.error notConnectedErr, []) ∧
    ClaudeBridgeTool.sendFile false name content = (Except.error notConnectedErr, []) ∧
    ClaudeBridgeTool.notifyFileChanged false path content = (Except.ok (), []) :=
  ⟨rfl, rfl, rfl, rfl, rfl, rfl, rfl, rfl⟩

/-- C4 counterexample: `notifyFileChanged` called while disconnected does not
fail with the "not connected" error as the claim asserts for every
fire-and-forget call — it returns successfully and silently. -/
theorem notify_disconnected_silent_cex :
    ClaudeBridgeTool.notifyFileChanged false "a.txt" "x" = (Except.ok (), []) ∧
    (ClaudeBridgeTool.notifyFileChanged false "a.txt" "x").1 ≠
      Except.error notConnectedErr := by
  refine ⟨rfl, ?_⟩
  intro h
  simp [ClaudeBridgeTool.notifyFileChanged] at h

/-- C7 (amended): a failing collaborator call never escapes the handler (no
exception reaches the poll loop): `updateCode` and `executeCommand` failures
post a reply with `success: false` and `error` set to the failure message;
a `fileRequest` failure posts a `fileContent` reply carrying the path and
the error message but no `success` field at all. -/
theorem collaborator_failure_wrapped (e path content command : String) :
    ClaudeBridgeTool.handleUpdateCode (Except.error e) path content =
      ([{ type := "updateCodeResult", path := path, success := some false,
          error := some e }], none) ∧
    ClaudeBridgeTool.handleExecuteCommand (Except.error e) command =
      ([{ type := "commandResult", command := command, success := some false,
          error := some e }], none) ∧
    ClaudeBridgeTool.handleFileRequest (Except.error e) path =
      ([{ type := "fileContent", path := path, error := some e }], none) :=
  ⟨rfl, rfl, rfl⟩

/-- C7 counterexample: the failure reply to a `fileRequest` carries no
`success` field (modelled as `none`), so it does not carry `success: false`
as the claim states for all three request types. -/
theorem fileRequest_error_reply_cex :
    ((ClaudeBridgeTool.handleFileRequest (Except.error "boom") "p").1.map
      Envelope.success) = [none] ∧
    (none : Option Bool) ≠ some false := by
  exact ⟨rfl, by simp⟩

/-- C3 (code bug): constructing a client against an unreachable bridge logs
the actionable remediation text and leaves the client disconnected, and the
constructor itself throws nothing synchronously — but the failure is then
re-thrown inside the un-awaited `connectToServer()` call, leaving an
unhandled promise rejection (fatal to a default-configured Node process),
contradicting "the failure is reported, not thrown uncaught". -/
theorem constructor_failure_rethrows (e : String) :
    constructClient false e =
      { connected := false,
        logs := ["Connecting to bridge server at http://localhost:2612...", connectErrorMsg],
        syncThrow := none,
        unhandledRejection := some ("Bridge server not available: " ++ e) } ∧
    (constructClient false e).unhandledRejection ≠ none := by
  refine ⟨rfl, ?_⟩
  simp [constructClient]

/-- C9 (amended): the first failing poll tick while connected flips the flag
immediately and schedules exactly one probe with a 5000 ms delay; failing
ticks while already disconnected schedule nothing; a failed probe only
spends itself and schedules no replacement; a successful poll tick changes
nothing; and `connected` becomes true only through a successful probe. -/
theorem reconnect_supervisor_behaviour (probes : List Nat) (b : Bool) :
    pollTickFail { connected := true, scheduledProbes := probes } =
      { connected := false, scheduledProbes := probes ++ [5000] } ∧
    pollTickFail { connected := false, scheduledProbes := probes } =
      { connected := false, scheduledProbes := probes } ∧
    probeFire { connected := b, scheduledProbes := probes } false =
      { connected := b, scheduledProbes := probes.drop 1 } ∧
    (probeFire { connected := b, scheduledProbes := probes } true).connected = true ∧
    (∀ s : ReconnSt, pollTickOk s = s) :=
  ⟨rfl, rfl, rfl, rfl, fun _ => rfl⟩

/-- C9 counterexample: after the single probe scheduled by the first failing
tick fails, no probe remains scheduled and subsequent failing poll ticks
(the client now disconnected) schedule none either — the supervisor never
reschedules after a failed probe, contrary to the claim. -/
theorem probe_fail_no_reschedule_cex :
    (probeFire (pollTickFail { connected := true, scheduledProbes := [] })
      false).scheduledProbes = [] ∧
    (pollTickFail (probeFire (pollTickFail { connected := true, scheduledProbes := [] })
      false)).scheduledProbes = [] :=
  ⟨rfl, rfl⟩
